import Mathlib

/-!
Shallow embedding of the staking delegation keeper of this repository
(`x/staking/keeper/delegation.go`): delegation records, unbonding
delegations and redelegations with their entry lists, the global
unbonding-operation id counter and its reverse index, the two
time-bucketed completion queues, and the orchestrator operations
(`Delegate`, `Unbond`, `Undelegate`, `BeginRedelegation`,
`CompleteUnbonding`, the hold/can-complete protocol and both queue
dequeues).

Addresses are modelled as natural numbers (the bech32 string round trip
never fails on addresses produced by the system itself, so
`AccAddressFromBech32`/`ValAddressFromBech32` are the identity here).
`sdk.Dec` share amounts are modelled as `Rat` (fixed-point decimals
embed exactly into the rationals for the add/sub/compare/mul/div
operations used), `sdk.Int` token amounts as `Int`, and `time.Time` as
`Int` (only ordering and addition of a duration are used; the zero
value of `time.Time` is `0`).

Go slices are modelled as lists.  Where the source mutates a slice in
place while holding an index or a pointer into it (`RemoveEntry`
shifts the remaining entries down inside the same backing array), the
model reproduces the Go read semantics explicitly at the call sites;
see `completeUnbondingLoop` and the can-complete functions.
-/

namespace Staking

/-- Association-list lookup modelling `store.Get`: first binding wins. -/
def aget {κ α : Type} [DecidableEq κ] (l : List (κ × α)) (k : κ) : Option α :=
  (l.find? (fun p => decide (p.1 = k))).map (fun p => p.2)

/-- `store.Set`: bind `k` to `v`, dropping any previous binding for `k`. -/
def aset {κ α : Type} [DecidableEq κ] (l : List (κ × α)) (k : κ) (v : α) : List (κ × α) :=
  (k, v) :: l.filter (fun p => !decide (p.1 = k))

/-- `store.Delete`: drop every binding for `k`. -/
def adel {κ α : Type} [DecidableEq κ] (l : List (κ × α)) (k : κ) : List (κ × α) :=
  l.filter (fun p => !decide (p.1 = k))

/-- Key-set insert: the store keeps index keys bound to empty bytes. -/
def kins {κ : Type} [DecidableEq κ] (l : List κ) (k : κ) : List κ :=
  if k ∈ l then l else k :: l

/-- Key-set delete. -/
def kdel {κ : Type} [DecidableEq κ] (l : List κ) (k : κ) : List κ :=
  l.filter (fun x => !decide (x = k))

/-- Time-bucket lookup in a queue ordered by timestamp:
`GetUBDQueueTimeSlice` returns the empty slice when the bucket is absent. -/
def qget {α : Type} (q : List (Int × List α)) (t : Int) : List α :=
  match q.find? (fun b => decide (b.1 = t)) with
  | some b => b.2
  | none => []

/-- Bucket write into a timestamp-sorted queue (the backing store is
ordered lexicographically on the encoded timestamp, so a write keeps
the ascending-by-time ordering the range iterator relies on). -/
def qset {α : Type} : List (Int × List α) → Int → List α → List (Int × List α)
  | [], t, v => [(t, v)]
  | b :: rest, t, v =>
    if t < b.1 then (t, v) :: b :: rest
    else if t = b.1 then (t, v) :: rest
    else b :: qset rest t v

/-- Truncation toward zero of a rational, as `sdk.Dec.TruncateInt`. -/
def ratTruncate (q : Rat) : Int :=
  Int.tdiv q.num (Int.ofNat q.den)

/-- `types.BondStatus`. -/
inductive BondStatus : Type where
  | Unbonded
  | Unbonding
  | Bonded
deriving DecidableEq, Repr

/-- `types.Validator`, restricted to the fields the delegation keeper reads. -/
structure Validator : Type where
  operator : Nat
  status : BondStatus
  tokens : Int
  delegatorShares : Rat
  jailed : Bool
  minSelfDelegation : Int
  unbondingHeight : Int
  unbondingTime : Int
deriving DecidableEq, Repr

def Validator.isBonded (v : Validator) : Bool :=
  match v.status with | .Bonded => true | _ => false

def Validator.isUnbonded (v : Validator) : Bool :=
  match v.status with | .Unbonded => true | _ => false

def Validator.isUnbonding (v : Validator) : Bool :=
  match v.status with | .Unbonding => true | _ => false

/-- Modelled from the spec: `types.Validator.InvalidExRate` is not under
`src/`; the spec describes the poisoned exchange rate as "zero shares
with non-zero tokens, or vice versa after full slash". -/
def Validator.invalidExRate (v : Validator) : Bool :=
  (decide (v.tokens = 0) && !decide (v.delegatorShares = 0)) ||
    (decide (v.delegatorShares = 0) && !decide (v.tokens = 0))

/-- Modelled from the spec: `types.Validator.TokensFromShares` is not
under `src/`; the spec describes it as the proportional conversion
`shares * totalTokens / totalShares`. -/
def Validator.tokensFromShares (v : Validator) (shares : Rat) : Rat :=
  shares * (v.tokens : Rat) / v.delegatorShares

/-- `types.Delegation`. -/
structure Delegation : Type where
  delegator : Nat
  validator : Nat
  shares : Rat
deriving DecidableEq, Repr

/-- `types.UnbondingDelegationEntry`. -/
structure UBDEntry : Type where
  id : Nat
  creationHeight : Int
  completionTime : Int
  initialBalance : Int
  balance : Int
  onHold : Bool
deriving DecidableEq, Repr

/-- Modelled from the spec: `UnbondingDelegationEntry.IsMature` is not
under `src/`; the spec defines maturity as `completionTime ≤ currentBlockTime`. -/
def UBDEntry.IsMature (e : UBDEntry) (t : Int) : Bool :=
  decide (e.completionTime ≤ t)

/-- `types.UnbondingDelegation`. -/
structure UnbondingDelegation : Type where
  delegator : Nat
  validator : Nat
  entries : List UBDEntry
deriving DecidableEq, Repr

/-- Modelled from the spec: `types.UnbondingDelegation.AddEntry` is not
under `src/`; the spec says a new entry (fresh id, creation height,
completion time, balance, hold flag clear) is appended to the list. -/
def UnbondingDelegation.addEntry (ubd : UnbondingDelegation) (creationHeight : Int)
    (minTime : Int) (balance : Int) (id : Nat) : UnbondingDelegation :=
  { ubd with entries := ubd.entries ++
      [{ id := id, creationHeight := creationHeight, completionTime := minTime,
         initialBalance := balance, balance := balance, onHold := false }] }

/-- Modelled from the spec: `types.NewUnbondingDelegation` is not under
`src/`; it builds a record with a single entry. -/
def newUnbondingDelegation (d v : Nat) (creationHeight : Int) (minTime : Int)
    (balance : Int) (id : Nat) : UnbondingDelegation :=
  { delegator := d, validator := v,
    entries := [{ id := id, creationHeight := creationHeight, completionTime := minTime,
                  initialBalance := balance, balance := balance, onHold := false }] }

/-- Modelled from the spec: `types.UnbondingDelegation.RemoveEntry` is
not under `src/`; the spec states that removing entry `i` shifts the
subsequent entries down in place. -/
def UnbondingDelegation.removeEntry (ubd : UnbondingDelegation) (i : Nat) : UnbondingDelegation :=
  { ubd with entries := ubd.entries.eraseIdx i }

/-- `types.RedelegationEntry`.  The source calls `AddEntry` without an
id argument (compare `SetRedelegationEntry` with
`SetUnbondingDelegationEntry`), so a freshly created entry carries the
zero value in its id field. -/
structure REDEntry : Type where
  id : Nat
  creationHeight : Int
  completionTime : Int
  initialBalance : Int
  sharesDst : Rat
  onHold : Bool
deriving DecidableEq, Repr

/-- Modelled from the spec: maturity of a redelegation entry is
`completionTime ≤ currentBlockTime`. -/
def REDEntry.IsMature (e : REDEntry) (t : Int) : Bool :=
  decide (e.completionTime ≤ t)

/-- `types.Redelegation`. -/
structure Redelegation : Type where
  delegator : Nat
  validatorSrc : Nat
  validatorDst : Nat
  entries : List REDEntry
deriving DecidableEq, Repr

/-- Modelled from the spec: `types.Redelegation.AddEntry` is not under
`src/`; a new entry is appended.  The call site passes no id, so the
id field stays at its zero value. -/
def Redelegation.addEntry (red : Redelegation) (creationHeight : Int) (minTime : Int)
    (balance : Int) (sharesDst : Rat) : Redelegation :=
  { red with entries := red.entries ++
      [{ id := 0, creationHeight := creationHeight, completionTime := minTime,
         initialBalance := balance, sharesDst := sharesDst, onHold := false }] }

/-- Modelled from the spec: `types.NewRedelegation` is not under `src/`. -/
def newRedelegation (d src dst : Nat) (creationHeight : Int) (minTime : Int)
    (balance : Int) (sharesDst : Rat) : Redelegation :=
  { delegator := d, validatorSrc := src, validatorDst := dst,
    entries := [{ id := 0, creationHeight := creationHeight, completionTime := minTime,
                  initialBalance := balance, sharesDst := sharesDst, onHold := false }] }

/-- Hook notifications fired by the keeper, recorded as a trace. -/
inductive HookEvent : Type where
  | beforeDelegationCreated (d v : Nat)
  | beforeDelegationSharesModified (d v : Nat)
  | beforeDelegationRemoved (d v : Nat)
  | afterDelegationModified (d v : Nat)
  | afterUnbondingOpInitiated (id : Nat)
deriving DecidableEq, Repr

/-- The two staking custody pools. -/
inductive PoolName : Type where
  | bonded
  | notBonded
deriving DecidableEq, Repr

/-- Calls issued to the external bank/custody collaborator, recorded as
a trace in call order. -/
inductive BankEvent : Type where
  | delegateFromAccount (acct : Nat) (pool : PoolName) (amt : Int)
  | undelegateToAccount (acct : Nat) (amt : Int)
  | poolToPool (src dst : PoolName) (amt : Int)
deriving DecidableEq, Repr

/-- The value stored under `unbondingOpIndex/{id}`: the primary key of
the record owning the entry with that id. -/
inductive OpRef : Type where
  | ubd (d v : Nat)
  | red (d src dst : Nat)
  | val (v : Nat)
deriving DecidableEq, Repr

/-- `DVPair`: (delegator, validator). -/
abbrev DVPair := Nat × Nat

/-- `DVVTriplet`: (delegator, source validator, destination validator). -/
abbrev DVVTriplet := Nat × Nat × Nat

/-- The persistent store of the staking module plus the block context,
parameters, and the traces of external calls. -/
structure State : Type where
  delegations : List ((Nat × Nat) × Delegation)
  validators : List (Nat × Validator)
  ubds : List ((Nat × Nat) × UnbondingDelegation)
  ubdByValIndex : List (Nat × Nat)
  reds : List ((Nat × Nat × Nat) × Redelegation)
  redByValSrcIndex : List (Nat × Nat × Nat)
  redByValDstIndex : List (Nat × Nat × Nat)
  opIndex : List (Nat × OpRef)
  ubdQueue : List (Int × List DVPair)
  redQueue : List (Int × List DVVTriplet)
  opIdCounter : Nat
  hooks : List HookEvent
  bank : List BankEvent
  blockTime : Int
  blockHeight : Int
  unbondingTimeP : Int
  maxEntriesP : Nat
deriving DecidableEq, Repr

/-- The domain-validation errors of `x/staking/types/errors.go` that the
delegation keeper returns. -/
inductive StakingErr : Type where
  | noDelegatorForAddress
  | notEnoughDelegationShares
  | noValidatorFound
  | maxUnbondingDelegationEntries
  | noUnbondingDelegation
  | selfRedelegation
  | badRedelegationDst
  | transitiveRedelegation
  | maxRedelegationEntries
  | tinyRedelegationAmount
  | noRedelegation
  | delegatorShareExRateInvalid
deriving DecidableEq, Repr

/-- Result of a keeper operation: success and domain errors carry the
store state as left by the operation (writes before an early error
return are kept; rollback is the outer transaction layer's job), and
`panic` models a Go runtime panic such as an out-of-range slice index. -/
inductive OpResult (α : Type) : Type where
  | ok (a : α) (s : State)
  | err (e : StakingErr) (s : State)
  | panic
deriving DecidableEq, Repr

/-- Record a hook notification. -/
def hook (s : State) (e : HookEvent) : State :=
  { s with hooks := s.hooks ++ [e] }

/-- Record a call to the bank collaborator.  The collaborator is
external to this repository; following the spec it is modelled as a
trace of custody moves that always succeed. -/
def bankEvent (s : State) (e : BankEvent) : State :=
  { s with bank := s.bank ++ [e] }

/-- `bondedTokensToNotBonded`. -/
def bondedTokensToNotBonded (s : State) (amt : Int) : State :=
  bankEvent s (.poolToPool .bonded .notBonded amt)

/-- `notBondedTokensToBonded`. -/
def notBondedTokensToBonded (s : State) (amt : Int) : State :=
  bankEvent s (.poolToPool .notBonded .bonded amt)

/-- `GetDelegation`. -/
def GetDelegation (s : State) (delAddr valAddr : Nat) : Option Delegation :=
  aget s.delegations (delAddr, valAddr)

/-- `SetDelegation`: the record is stored under the key built from its
own address fields. -/
def SetDelegation (s : State) (delegation : Delegation) : State :=
  { s with delegations := aset s.delegations (delegation.delegator, delegation.validator) delegation }

/-- `RemoveDelegation`: fires the before-removed hook, then deletes. -/
def RemoveDelegation (s : State) (delegation : Delegation) : State :=
  let s := hook s (.beforeDelegationRemoved delegation.delegator delegation.validator)
  { s with delegations := adel s.delegations (delegation.delegator, delegation.validator) }

/-- `GetValidator` of the validator registry (external collaborator,
interface per the spec). -/
def GetValidator (s : State) (valAddr : Nat) : Option Validator :=
  aget s.validators valAddr

/-- Modelled from the spec: `SetValidator` of the validator registry is
not under `src/`; it stores the aggregate under its operator address. -/
def SetValidator (s : State) (v : Validator) : State :=
  { s with validators := aset s.validators v.operator v }

/-- Modelled from the spec: `RemoveValidator` of the validator registry
is not under `src/`; it removes the aggregate record. -/
def RemoveValidator (s : State) (valAddr : Nat) : State :=
  { s with validators := adel s.validators valAddr }

/-- Modelled from the spec: `jailValidator` is not under `src/`; the
spec says the validator is jailed as a side effect. -/
def jailValidator (s : State) (v : Validator) : State :=
  SetValidator s { v with jailed := true }

/-- Modelled from the spec: `AddValidatorTokensAndShares` is not under
`src/`; per the spec's share accounting it issues shares proportionally
(`totalShares * amt / totalTokens`, or one-to-one for a fresh pool) and
persists the updated aggregate. -/
def AddValidatorTokensAndShares (s : State) (v : Validator) (amt : Int) :
    State × Validator × Rat :=
  let issued : Rat :=
    if v.delegatorShares = 0 then (amt : Rat)
    else v.delegatorShares * (amt : Rat) / (v.tokens : Rat)
  let v' := { v with tokens := v.tokens + amt, delegatorShares := v.delegatorShares + issued }
  (SetValidator s v', v', issued)

/-- Modelled from the spec: `RemoveValidatorTokensAndShares` is not
under `src/`; per the spec's share accounting the token amount is the
proportional conversion truncated toward zero (all remaining tokens
when the last shares are removed), and the updated aggregate is
persisted. -/
def RemoveValidatorTokensAndShares (s : State) (v : Validator) (shares : Rat) :
    State × Validator × Int :=
  let remaining := v.delegatorShares - shares
  let issuedTokens : Int :=
    if remaining = 0 then v.tokens else ratTruncate (v.tokensFromShares shares)
  let v' := { v with tokens := v.tokens - issuedTokens, delegatorShares := remaining }
  (SetValidator s v', v', issuedTokens)

/-- `GetUnbondingDelegation`. -/
def GetUnbondingDelegation (s : State) (delAddr valAddr : Nat) : Option UnbondingDelegation :=
  aget s.ubds (delAddr, valAddr)

/-- `SetUnbondingDelegation`: stores the record and its by-validator
index key. -/
def SetUnbondingDelegation (s : State) (ubd : UnbondingDelegation) : State :=
  { s with ubds := aset s.ubds (ubd.delegator, ubd.validator) ubd,
           ubdByValIndex := kins s.ubdByValIndex (ubd.validator, ubd.delegator) }

/-- `RemoveUnbondingDelegation`: deletes the record and its index key. -/
def RemoveUnbondingDelegation (s : State) (ubd : UnbondingDelegation) : State :=
  { s with ubds := adel s.ubds (ubd.delegator, ubd.validator),
           ubdByValIndex := kdel s.ubdByValIndex (ubd.validator, ubd.delegator) }

/-- `IncrementUnbondingOpId`: reads the stored counter (zero when
absent), increments, stores, and returns the fresh id. -/
def IncrementUnbondingOpId (s : State) : Nat × State :=
  let id := s.opIdCounter + 1
  (id, { s with opIdCounter := id })

/-- `GetUnbondingDelegationByUnbondingOpId`: the reverse index yields
the owning record's primary key, which is then fetched.  A key of the
other record type cannot decode as an `UnbondingDelegation`, so only a
ubd reference resolves. -/
def GetUnbondingDelegationByUnbondingOpId (s : State) (id : Nat) : Option UnbondingDelegation :=
  match aget s.opIndex id with
  | some (.ubd d v) => GetUnbondingDelegation s d v
  | _ => none

/-- `SetUBDByUnbondingOpIndex`. -/
def SetUBDByUnbondingOpIndex (s : State) (ubd : UnbondingDelegation) (id : Nat) : State :=
  { s with opIndex := aset s.opIndex id (.ubd ubd.delegator ubd.validator) }

/-- `DeleteUBDByUnbondingOpIndex`. -/
def DeleteUBDByUnbondingOpIndex (s : State) (id : Nat) : State :=
  { s with opIndex := adel s.opIndex id }

/-- `HasMaxUnbondingDelegationEntries`. -/
def HasMaxUnbondingDelegationEntries (s : State) (delegatorAddr validatorAddr : Nat) : Bool :=
  match GetUnbondingDelegation s delegatorAddr validatorAddr with
  | none => false
  | some ubd => decide (ubd.entries.length ≥ s.maxEntriesP)

/-- `SetUnbondingDelegationEntry`: creates the record or appends an
entry, persists it, writes the reverse-index key for the fresh id and
fires the unbonding-op-initiated hook. -/
def SetUnbondingDelegationEntry (s : State) (delegatorAddr validatorAddr : Nat)
    (creationHeight : Int) (minTime : Int) (balance : Int) : State × UnbondingDelegation :=
  let existing := GetUnbondingDelegation s delegatorAddr validatorAddr
  let (id, s) := IncrementUnbondingOpId s
  let ubd :=
    match existing with
    | some u => u.addEntry creationHeight minTime balance id
    | none => newUnbondingDelegation delegatorAddr validatorAddr creationHeight minTime balance id
  let s := SetUnbondingDelegation s ubd
  let s := SetUBDByUnbondingOpIndex s ubd id
  let s := hook s (.afterUnbondingOpInitiated id)
  (s, ubd)

/-- `GetUBDQueueTimeSlice`. -/
def GetUBDQueueTimeSlice (s : State) (timestamp : Int) : List DVPair :=
  qget s.ubdQueue timestamp

/-- `SetUBDQueueTimeSlice`. -/
def SetUBDQueueTimeSlice (s : State) (timestamp : Int) (keys : List DVPair) : State :=
  { s with ubdQueue := qset s.ubdQueue timestamp keys }

/-- `InsertUBDQueue`. -/
def InsertUBDQueue (s : State) (ubd : UnbondingDelegation) (completionTime : Int) : State :=
  let dvPair : DVPair := (ubd.delegator, ubd.validator)
  let timeSlice := GetUBDQueueTimeSlice s completionTime
  if timeSlice.isEmpty then SetUBDQueueTimeSlice s completionTime [dvPair]
  else SetUBDQueueTimeSlice s completionTime (timeSlice ++ [dvPair])

/-- `DequeueAllMatureUBDQueue`.  The iterator the source builds is
bounded by `ctx.BlockHeader().Time`, not by the `currTime` argument
(see the call at line 407 of `delegation.go`): the buckets visited and
deleted are exactly those with timestamp at most the block time, in
ascending timestamp order. -/
def DequeueAllMatureUBDQueue (s : State) (currTime : Int) : State × List DVPair :=
  let visited := s.ubdQueue.filter (fun b => decide (b.1 ≤ s.blockTime))
  let matureUnbonds := (visited.map (fun b => b.2)).flatten
  ({ s with ubdQueue := s.ubdQueue.filter (fun b => !decide (b.1 ≤ s.blockTime)) },
   matureUnbonds)

/-- `GetRedelegation`. -/
def GetRedelegation (s : State) (delAddr valSrcAddr valDstAddr : Nat) : Option Redelegation :=
  aget s.reds (delAddr, valSrcAddr, valDstAddr)

/-- `GetRedelegationByUnbondingOpId`: as for unbonding delegations,
only a redelegation reference resolves. -/
def GetRedelegationByUnbondingOpId (s : State) (id : Nat) : Option Redelegation :=
  match aget s.opIndex id with
  | some (.red d src dst) => GetRedelegation s d src dst
  | _ => none

/-- `SetREDByUnbondingOpIndex`. -/
def SetREDByUnbondingOpIndex (s : State) (red : Redelegation) (id : Nat) : State :=
  { s with opIndex := aset s.opIndex id (.red red.delegator red.validatorSrc red.validatorDst) }

/-- `DeleteREDByUnbondingOpIndex`. -/
def DeleteREDByUnbondingOpIndex (s : State) (id : Nat) : State :=
  { s with opIndex := adel s.opIndex id }

/-- `HasReceivingRedelegation`: scans the by-destination index keys
`{dstVal}{del}{src}` under the `(delAddr, valDstAddr)` range. -/
def HasReceivingRedelegation (s : State) (delAddr valDstAddr : Nat) : Bool :=
  s.redByValDstIndex.any (fun t => decide (t.1 = valDstAddr) && decide (t.2.1 = delAddr))

/-- `HasMaxRedelegationEntries`. -/
def HasMaxRedelegationEntries (s : State) (delegatorAddr validatorSrcAddr validatorDstAddr : Nat) : Bool :=
  match GetRedelegation s delegatorAddr validatorSrcAddr validatorDstAddr with
  | none => false
  | some red => decide (red.entries.length ≥ s.maxEntriesP)

/-- `SetRedelegation`: stores the record and both index keys
(`{src}{del}{dst}` and `{dst}{del}{src}`). -/
def SetRedelegation (s : State) (red : Redelegation) : State :=
  { s with
      reds := aset s.reds (red.delegator, red.validatorSrc, red.validatorDst) red,
      redByValSrcIndex := kins s.redByValSrcIndex (red.validatorSrc, red.delegator, red.validatorDst),
      redByValDstIndex := kins s.redByValDstIndex (red.validatorDst, red.delegator, red.validatorSrc) }

/-- `RemoveRedelegation`. -/
def RemoveRedelegation (s : State) (red : Redelegation) : State :=
  { s with
      reds := adel s.reds (red.delegator, red.validatorSrc, red.validatorDst),
      redByValSrcIndex := kdel s.redByValSrcIndex (red.validatorSrc, red.delegator, red.validatorDst),
      redByValDstIndex := kdel s.redByValDstIndex (red.validatorDst, red.delegator, red.validatorSrc) }

/-- `SetRedelegationEntry`: like `SetUnbondingDelegationEntry`, but note
that the fresh id is passed only to the reverse index and the hook, not
to `AddEntry`. -/
def SetRedelegationEntry (s : State) (delegatorAddr validatorSrcAddr validatorDstAddr : Nat)
    (creationHeight : Int) (minTime : Int) (balance : Int)
    (sharesSrc sharesDst : Rat) : State × Redelegation :=
  let existing := GetRedelegation s delegatorAddr validatorSrcAddr validatorDstAddr
  let (id, s) := IncrementUnbondingOpId s
  let red :=
    match existing with
    | some r => r.addEntry creationHeight minTime balance sharesDst
    | none => newRedelegation delegatorAddr validatorSrcAddr validatorDstAddr
        creationHeight minTime balance sharesDst
  let s := SetRedelegation s red
  let s := SetREDByUnbondingOpIndex s red id
  let s := hook s (.afterUnbondingOpInitiated id)
  (s, red)

/-- `GetRedelegationQueueTimeSlice`. -/
def GetRedelegationQueueTimeSlice (s : State) (timestamp : Int) : List DVVTriplet :=
  qget s.redQueue timestamp

/-- `SetRedelegationQueueTimeSlice`. -/
def SetRedelegationQueueTimeSlice (s : State) (timestamp : Int) (keys : List DVVTriplet) : State :=
  { s with redQueue := qset s.redQueue timestamp keys }

/-- `InsertRedelegationQueue`. -/
def InsertRedelegationQueue (s : State) (red : Redelegation) (completionTime : Int) : State :=
  let dvvTriplet : DVVTriplet := (red.delegator, red.validatorSrc, red.validatorDst)
  let timeSlice := GetRedelegationQueueTimeSlice s completionTime
  if timeSlice.isEmpty then SetRedelegationQueueTimeSlice s completionTime [dvvTriplet]
  else SetRedelegationQueueTimeSlice s completionTime (timeSlice ++ [dvvTriplet])

/-- `DequeueAllMatureRedelegationQueue`; as for the unbonding queue,
the iterator bound is the block header time, not `currTime`. -/
def DequeueAllMatureRedelegationQueue (s : State) (currTime : Int) : State × List DVVTriplet :=
  let visited := s.redQueue.filter (fun b => decide (b.1 ≤ s.blockTime))
  let matureRedelegations := (visited.map (fun b => b.2)).flatten
  ({ s with redQueue := s.redQueue.filter (fun b => !decide (b.1 ≤ s.blockTime)) },
   matureRedelegations)

/-- The pool-transfer truth table of `Delegate` for the
non-subtract-account path.  All six (token source, validator bonded)
combinations are covered by the four cases of the source switch; the
`default: panic` arm is unreachable for well-formed statuses. -/
def delegatePoolMoves (s : State) (tokenSrc : BondStatus) (validator : Validator)
    (bondAmt : Int) : State :=
  match tokenSrc, validator.isBonded with
  | .Bonded, true => s
  | .Unbonded, false => s
  | .Unbonding, false => s
  | .Unbonded, true => notBondedTokensToBonded s bondAmt
  | .Unbonding, true => notBondedTokensToBonded s bondAmt
  | .Bonded, false => bondedTokensToNotBonded s bondAmt

/-- `Delegate`.  `tokenSrc` is the bond status of the incoming funds;
`validator` is the aggregate the caller already read. -/
def Delegate (s : State) (delAddr : Nat) (bondAmt : Int) (tokenSrc : BondStatus)
    (validator : Validator) (subtractAccount : Bool) : OpResult Rat :=
  if validator.invalidExRate then .err .delegatorShareExRateInvalid s
  else
    let found := (GetDelegation s delAddr validator.operator).isSome
    let delegation :=
      match GetDelegation s delAddr validator.operator with
      | some d => d
      | none => { delegator := delAddr, validator := validator.operator, shares := 0 }
    let s :=
      if found then hook s (.beforeDelegationSharesModified delAddr validator.operator)
      else hook s (.beforeDelegationCreated delAddr validator.operator)
    let step : Option State :=
      if subtractAccount then
        if tokenSrc = .Bonded then none
        else
          let sendName : PoolName := if validator.isBonded then .bonded else .notBonded
          some (bankEvent s (.delegateFromAccount delAddr sendName bondAmt))
      else
        some (delegatePoolMoves s tokenSrc validator bondAmt)
    match step with
    | none => .panic
    | some s =>
      let (s, _, newShares) := AddValidatorTokensAndShares s validator bondAmt
      let delegation := { delegation with shares := delegation.shares + newShares }
      let s := SetDelegation s delegation
      let s := hook s (.afterDelegationModified delAddr delegation.validator)
      .ok newShares s

/-- The jail step of `Unbond`: when the delegator is the validator's
own operator, the validator is not already jailed, and the remaining
self-delegation in truncated tokens falls below the minimum, the
validator is jailed and re-read from the registry (`mustGetValidator`);
otherwise the state and the validator pass through. -/
def unbondJailStep (s : State) (delAddr : Nat) (validator : Validator)
    (remainingShares : Rat) : State × Option Validator :=
  if decide (delAddr = validator.operator) && !validator.jailed &&
      decide (ratTruncate (validator.tokensFromShares remainingShares) <
        validator.minSelfDelegation) then
    let s := jailValidator s validator
    (s, GetValidator s validator.operator)
  else (s, some validator)

/-- `Unbond`: removes `shares` from the delegation, jailing the
validator when the operator's self-delegation falls below the minimum,
deleting the delegation at exactly zero shares, and removing the
proportional tokens and shares from the validator aggregate
(`mustGetValidator` after jailing panics when the registry lookup
fails). -/
def Unbond (s : State) (delAddr valAddr : Nat) (shares : Rat) : OpResult Int :=
  match GetDelegation s delAddr valAddr with
  | none => .err .noDelegatorForAddress s
  | some delegation =>
    let s := hook s (.beforeDelegationSharesModified delAddr valAddr)
    if delegation.shares < shares then .err .notEnoughDelegationShares s
    else
      match GetValidator s valAddr with
      | none => .err .noValidatorFound s
      | some validator =>
        let delegation := { delegation with shares := delegation.shares - shares }
        let p := unbondJailStep s delAddr validator delegation.shares
        match p.2 with
        | none => .panic
        | some validator =>
          let s :=
            if delegation.shares = 0 then RemoveDelegation p.1 delegation
            else
              let s := SetDelegation p.1 delegation
              hook s (.afterDelegationModified delegation.delegator delegation.validator)
          let q := RemoveValidatorTokensAndShares s validator shares
          let s :=
            if q.2.1.delegatorShares = 0 && q.2.1.isUnbonded then
              RemoveValidator q.1 q.2.1.operator
            else q.1
          .ok q.2.2 s

/-- `getBeginInfo`: completion time and height for a redelegation from
`valSrcAddr`, with the complete-now flag, keyed on the source
validator's status (a missing validator is treated like a bonded one). -/
def getBeginInfo (s : State) (valSrcAddr : Nat) : Int × Int × Bool :=
  match GetValidator s valSrcAddr with
  | none => (s.blockTime + s.unbondingTimeP, s.blockHeight, false)
  | some validator =>
    if validator.isBonded then (s.blockTime + s.unbondingTimeP, s.blockHeight, false)
    else if validator.isUnbonded then (0, 0, true)
    else (validator.unbondingTime, validator.unbondingHeight, false)

/-- `Undelegate`. -/
def Undelegate (s : State) (delAddr valAddr : Nat) (sharesAmount : Rat) : OpResult Int :=
  match GetValidator s valAddr with
  | none => .err .noDelegatorForAddress s
  | some validator =>
    if HasMaxUnbondingDelegationEntries s delAddr valAddr then
      .err .maxUnbondingDelegationEntries s
    else
      match Unbond s delAddr valAddr sharesAmount with
      | .panic => .panic
      | .err e s => .err e s
      | .ok returnAmount s =>
        let s := if validator.isBonded then bondedTokensToNotBonded s returnAmount else s
        let completionTime := s.blockTime + s.unbondingTimeP
        let (s, ubd) := SetUnbondingDelegationEntry s delAddr valAddr s.blockHeight
          completionTime returnAmount
        let s := InsertUBDQueue s ubd completionTime
        .ok completionTime s

/-- The entry sweep of `CompleteUnbonding`.  The source walks the slice
by index, removing a mature not-on-hold entry in place and stepping the
index back, so the element shifted into the vacated slot is examined
next; the pointer `entry := &ubd.Entries[i]` taken before the removal
still points at backing-array slot `i` afterwards, which then holds the
following entry when one exists (the shift) and the removed entry
itself when the removed entry was last.  First result: the remaining
entries; second: the balances passed to the release calls, in call
order (a release is skipped when the inspected balance is zero). -/
def completeUnbondingLoop (t : Int) : List UBDEntry → List UBDEntry × List Int
  | [] => ([], [])
  | e :: rest =>
    if e.IsMature t then
      if e.onHold then
        let p := completeUnbondingLoop t rest
        (e :: p.1, p.2)
      else
        let aliased : UBDEntry := match rest with | [] => e | r :: _ => r
        let p := completeUnbondingLoop t rest
        (p.1, (if aliased.balance = 0 then ([] : List Int) else [aliased.balance]) ++ p.2)
    else
      let p := completeUnbondingLoop t rest
      (e :: p.1, p.2)

/-- `CompleteUnbonding`: sweeps the record's entries at the block time,
releases the inspected balances to the record's delegator address,
removes the record when no entries remain, and returns the total of the
released coins. -/
def CompleteUnbonding (s : State) (delAddr valAddr : Nat) : OpResult Int :=
  match GetUnbondingDelegation s delAddr valAddr with
  | none => .err .noUnbondingDelegation s
  | some ubd =>
    let swept := completeUnbondingLoop s.blockTime ubd.entries
    let s := swept.2.foldl (fun st amt => bankEvent st (.undelegateToAccount ubd.delegator amt)) s
    let ubd := { ubd with entries := swept.1 }
    let s :=
      if ubd.entries.isEmpty then RemoveUnbondingDelegation s ubd
      else SetUnbondingDelegation s ubd
    .ok (swept.2.foldl (fun a b => a + b) 0) s

/-- `unbondingDelegationEntryArrayIndex`: index of the entry with the
given id. -/
def unbondingDelegationEntryArrayIndex (ubd : UnbondingDelegation) (id : Nat) : Option Nat :=
  ubd.entries.findIdx? (fun e => decide (e.id = id))

/-- `redelegationEntryArrayIndex`. -/
def redelegationEntryArrayIndex (red : Redelegation) (id : Nat) : Option Nat :=
  red.entries.findIdx? (fun e => decide (e.id = id))

/-- Set the hold flag of the entry at index `i` (a plain element write,
`ubd.Entries[i].OnHold = b`). -/
def setOnHoldAt (l : List UBDEntry) (i : Nat) (b : Bool) : List UBDEntry :=
  l.enum.map (fun p => if p.1 = i then { p.2 with onHold := b } else p.2)

/-- `PutUnbondingDelegationEntryOnHold`. -/
def PutUnbondingDelegationEntryOnHold (s : State) (id : Nat) : State × Bool :=
  match GetUnbondingDelegationByUnbondingOpId s id with
  | none => (s, false)
  | some ubd =>
    match unbondingDelegationEntryArrayIndex ubd id with
    | none => (s, false)
    | some i =>
      (SetUnbondingDelegation s { ubd with entries := setOnHoldAt ubd.entries i true }, true)

/-- Set the hold flag of the redelegation entry at index `i`. -/
def setOnHoldAtRed (l : List REDEntry) (i : Nat) (b : Bool) : List REDEntry :=
  l.enum.map (fun p => if p.1 = i then { p.2 with onHold := b } else p.2)

/-- `PutRedelegationEntryOnHold`. -/
def PutRedelegationEntryOnHold (s : State) (id : Nat) : State × Bool :=
  match GetRedelegationByUnbondingOpId s id with
  | none => (s, false)
  | some red =>
    match redelegationEntryArrayIndex red id with
    | none => (s, false)
    | some i =>
      (SetRedelegation s { red with entries := setOnHoldAtRed red.entries i true }, true)

/-- `PutUnbondingOpOnHold`. -/
def PutUnbondingOpOnHold (s : State) (id : Nat) : State × Bool :=
  match GetUnbondingDelegationByUnbondingOpId s id with
  | some _ => PutUnbondingDelegationEntryOnHold s id
  | none =>
    match GetRedelegationByUnbondingOpId s id with
    | some _ => PutRedelegationEntryOnHold s id
    | none => (s, false)

/-- `UnbondingDelegationCanComplete`.  When the matching entry is not
yet mature its hold flag is cleared and the record persisted; when it
is mature the entry is removed in place and the source then reads
`ubd.Entries[i]` twice on the shortened slice — an out-of-range access
(panic) when the removed entry was the last element, and the entry
shifted up from position `i+1` otherwise, whose id is the one deleted
from the reverse index and whose balance is the one inspected and
released. -/
def UnbondingDelegationCanComplete (s : State) (id : Nat) : OpResult Bool :=
  match GetUnbondingDelegationByUnbondingOpId s id with
  | none => .ok false s
  | some ubd =>
    match unbondingDelegationEntryArrayIndex ubd id with
    | none => .ok false s
    | some i =>
      match ubd.entries.get? i with
      | none => .panic
      | some e =>
        if !e.IsMature s.blockTime then
          let ubd := { ubd with entries := setOnHoldAt ubd.entries i false }
          .ok true (if ubd.entries.isEmpty then RemoveUnbondingDelegation s ubd
                    else SetUnbondingDelegation s ubd)
        else
          let newEntries := ubd.entries.eraseIdx i
          match newEntries.get? i with
          | none => .panic
          | some shifted =>
            let s := DeleteUBDByUnbondingOpIndex s shifted.id
            let s :=
              if shifted.balance = 0 then s
              else bankEvent s (.undelegateToAccount ubd.delegator shifted.balance)
            let ubd := { ubd with entries := newEntries }
            .ok true (if ubd.entries.isEmpty then RemoveUnbondingDelegation s ubd
                      else SetUnbondingDelegation s ubd)

/-- `RedelegationCanComplete`.  Same shape as the unbonding variant,
but with no fund release, and the clear-hold branch mutates only the
local copy — the flag change is never persisted (the set/remove
epilogue sits inside the mature branch of the source). -/
def RedelegationCanComplete (s : State) (id : Nat) : OpResult Bool :=
  match GetRedelegationByUnbondingOpId s id with
  | none => .ok false s
  | some red =>
    match redelegationEntryArrayIndex red id with
    | none => .ok false s
    | some i =>
      match red.entries.get? i with
      | none => .panic
      | some e =>
        if !e.IsMature s.blockTime then
          .ok true s
        else
          let newEntries := red.entries.eraseIdx i
          match newEntries.get? i with
          | none => .panic
          | some shifted =>
            let s := DeleteREDByUnbondingOpIndex s shifted.id
            let red := { red with entries := newEntries }
            .ok true (if red.entries.isEmpty then RemoveRedelegation s red
                      else SetRedelegation s red)

/-- `UnbondingOpCanComplete`: dispatches on which record type the
reverse index resolves the id to. -/
def UnbondingOpCanComplete (s : State) (id : Nat) : OpResult Bool :=
  match GetUnbondingDelegationByUnbondingOpId s id with
  | some _ => UnbondingDelegationCanComplete s id
  | none =>
    match GetRedelegationByUnbondingOpId s id with
    | some _ => RedelegationCanComplete s id
    | none => .ok false s

/-- `BeginRedelegation`. -/
def BeginRedelegation (s : State) (delAddr valSrcAddr valDstAddr : Nat)
    (sharesAmount : Rat) : OpResult Int :=
  if valSrcAddr = valDstAddr then .err .selfRedelegation s
  else
    match GetValidator s valDstAddr with
    | none => .err .badRedelegationDst s
    | some dstValidator =>
      match GetValidator s valSrcAddr with
      | none => .err .badRedelegationDst s
      | some srcValidator =>
        if HasReceivingRedelegation s delAddr valSrcAddr then .err .transitiveRedelegation s
        else if HasMaxRedelegationEntries s delAddr valSrcAddr valDstAddr then
          .err .maxRedelegationEntries s
        else
          match Unbond s delAddr valSrcAddr sharesAmount with
          | .panic => .panic
          | .err e s => .err e s
          | .ok returnAmount s =>
            if returnAmount = 0 then .err .tinyRedelegationAmount s
            else
              match Delegate s delAddr returnAmount srcValidator.status dstValidator false with
              | .panic => .panic
              | .err e s => .err e s
              | .ok sharesCreated s =>
                let info := getBeginInfo s valSrcAddr
                if info.2.2 then .ok info.1 s
                else
                  let p := SetRedelegationEntry s delAddr valSrcAddr valDstAddr
                    info.2.1 info.1 returnAmount sharesAmount sharesCreated
                  let s := InsertRedelegationQueue p.1 p.2 info.1
                  .ok info.1 s

/-- The error of a result, when it is a domain error. -/
def OpResult.errOf? {α : Type} : OpResult α → Option StakingErr
  | .err e _ => some e
  | _ => none

/-- The resulting store state of a result that did not panic. -/
def OpResult.stateOf? {α : Type} : OpResult α → Option State
  | .ok _ s => some s
  | .err _ s => some s
  | .panic => none

/-- The returned value of a successful result. -/
def OpResult.valueOf? {α : Type} : OpResult α → Option α
  | .ok a _ => some a
  | _ => none

theorem aget_aset_self {κ α : Type} [DecidableEq κ] (l : List (κ × α)) (k : κ) (v : α) :
    aget (aset l k v) k = some v := by
  simp [aget, aset, List.find?]

theorem aget_adel_self {κ α : Type} [DecidableEq κ] (l : List (κ × α)) (k : κ) :
    aget (adel l k) k = none := by
  induction l with
  | nil => rfl
  | cons a l ih =>
    by_cases h : a.1 = k
    · simpa [adel, List.filter, h] using ih
    · have hstep : adel (a :: l) k = a :: adel l k := by simp [adel, List.filter, h]
      rw [hstep]
      simpa [aget, List.find?, h] using ih

theorem GetDelegation_hook (s : State) (e : HookEvent) (d v : Nat) :
    GetDelegation (hook s e) d v = GetDelegation s d v := rfl

theorem GetValidator_hook (s : State) (e : HookEvent) (a : Nat) :
    GetValidator (hook s e) a = GetValidator s a := rfl

theorem GetDelegation_SetValidator (s : State) (val : Validator) (d v : Nat) :
    GetDelegation (SetValidator s val) d v = GetDelegation s d v := rfl

theorem GetDelegation_RemoveValidator (s : State) (a : Nat) (d v : Nat) :
    GetDelegation (RemoveValidator s a) d v = GetDelegation s d v := rfl

theorem GetDelegation_bankEvent (s : State) (e : BankEvent) (d v : Nat) :
    GetDelegation (bankEvent s e) d v = GetDelegation s d v := rfl

/-- A store with nothing in it, zero block context and the default
seven-entry cap; base for the concrete test states. -/
def emptyState : State :=
  { delegations := [], validators := [], ubds := [], ubdByValIndex := [],
    reds := [], redByValSrcIndex := [], redByValDstIndex := [], opIndex := [],
    ubdQueue := [], redQueue := [], opIdCounter := 0, hooks := [], bank := [],
    blockTime := 0, blockHeight := 0, unbondingTimeP := 0, maxEntriesP := 7 }

/-- Delegator 10 / validator 20 hold one unbonding entry (id 1,
completion time 5, balance 7, not on hold) with its reverse-index key,
at block time 10 — so the entry is mature. -/
def c1State : State :=
  { emptyState with
      ubds := [((10, 20), ⟨10, 20, [⟨1, 1, 5, 7, 7, false⟩]⟩)],
      ubdByValIndex := [(20, 10)],
      opIndex := [(1, .ubd 10 20)],
      opIdCounter := 1,
      blockTime := 10 }

/-- C1: the claim's mature case fails on the code.  For id 1, which the
reverse index resolves to an existing unbonding delegation whose single
matching entry is mature, `UnbondingDelegationCanComplete` does not
remove the entry, delete the id's index key, release the balance and
return found=true as claimed: after removing the last entry it reads
`ubd.Entries[i]` on the shortened slice and aborts on an out-of-range
index. -/
theorem unbondingDelegationCanComplete_mature_entry_aborts :
    UnbondingDelegationCanComplete c1State 1 = .panic := by rfl

/-- Delegator 10 / validator 20 hold two mature, not-on-hold unbonding
entries with balances 10 and 20, at block time 10. -/
def c2State : State :=
  { emptyState with
      ubds := [((10, 20), ⟨10, 20, [⟨1, 1, 3, 10, 10, false⟩, ⟨2, 1, 4, 20, 20, false⟩]⟩)],
      ubdByValIndex := [(20, 10)],
      opIndex := [(1, .ubd 10 20), (2, .ubd 10 20)],
      opIdCounter := 2,
      blockTime := 10 }

/-- C2: the claim's per-entry release amounts fail on the code.  With
two consecutive mature entries of balances 10 and 20,
`CompleteUnbonding` removes both entries but the pointer taken before
each in-place removal reads the shifted slot, so the two release calls
both carry balance 20 (total 40) instead of the removed entries' own
balances 10 and 20 (total 30). -/
theorem completeUnbonding_releases_shifted_balances :
    (CompleteUnbonding c2State 10 20).valueOf? = some 40 ∧
      (CompleteUnbonding c2State 10 20).stateOf?.map State.bank =
        some [.undelegateToAccount 10 20, .undelegateToAccount 10 20] ∧
      (CompleteUnbonding c2State 10 20).stateOf?.map (fun s => GetUnbondingDelegation s 10 20) =
        some none := by
  refine ⟨rfl, rfl, rfl⟩

/-- Same store as `c1State`: one mature entry (id 1, balance 7), not on
hold, block time 10. -/
def c3State : State := c1State

/-- C3: the claimed two-phase hold/release protocol fails on the code.
After `PutUnbondingOpOnHold` succeeds on the mature entry, the first
`UnbondingOpCanComplete` call does not clear the hold and return
found=true without releasing funds: the mature branch never consults
the hold flag, attempts the completion at once, and aborts on the
out-of-range read after removing the last entry, so no second call can
release the balance exactly once. -/
theorem putOnHold_then_canComplete_aborts :
    (PutUnbondingOpOnHold c3State 1).2 = true ∧
      ((PutUnbondingOpOnHold c3State 1).1 |> fun s =>
        (GetUnbondingDelegation s 10 20).map (fun u => u.entries.map UBDEntry.onHold)) =
        some [true] ∧
      UnbondingOpCanComplete (PutUnbondingOpOnHold c3State 1).1 1 = .panic := by
  refine ⟨rfl, rfl, rfl⟩

/-- Delegator 10 / validator 20 hold a mature entry (id 1, balance 7)
followed by an immature one (id 2, completion time 50, balance 9), both
with reverse-index keys, at block time 10. -/
def c4State : State :=
  { emptyState with
      ubds := [((10, 20), ⟨10, 20, [⟨1, 1, 5, 7, 7, false⟩, ⟨2, 1, 50, 9, 9, false⟩]⟩)],
      ubdByValIndex := [(20, 10)],
      opIndex := [(1, .ubd 10 20), (2, .ubd 10 20)],
      opIdCounter := 2,
      blockTime := 10 }

/-- C4: the reverse-index invariant fails on the code.  Completing the
mature entry with id 1 deletes the index key of the entry shifted into
its slot — the still-live entry id 2 — and leaves the key of the
removed entry 1 dangling: afterwards the index holds a key for a
removed entry and no key for the remaining one, the opposite of the
claim. -/
theorem canComplete_deletes_live_index_key :
    (UnbondingDelegationCanComplete c4State 1).valueOf? = some true ∧
      (UnbondingDelegationCanComplete c4State 1).stateOf?.map
          (fun s => (aget s.opIndex 1, aget s.opIndex 2,
            (GetUnbondingDelegation s 10 20).map (fun u => u.entries.map UBDEntry.id))) =
        some (some (.ubd 10 20), none, some [2]) := by
  refine ⟨rfl, rfl⟩

/-- One unbonding-queue bucket at timestamp 50 holding the pair (1,2),
with block time 0; and the mirror state for the redelegation queue. -/
def c9State : State :=
  { emptyState with ubdQueue := [(50, [(1, 2)])], blockTime := 0 }

/-- Redelegation-queue variant of `c9State`. -/
def c9StateRed : State :=
  { emptyState with redQueue := [(50, [(1, 2, 3)])], blockTime := 0 }

/-- C9: the claim fails on the code because the `currTime` argument is
ignored — the sweep is bounded by the block header time.  With block
time 0 and `currTime` 100, the bucket at timestamp 50 (≤ currTime) is
neither returned nor deleted; conversely with block time 60 and
`currTime` 0 the bucket is returned and deleted although its timestamp
exceeds `currTime`.  The redelegation queue behaves identically. -/
theorem dequeue_bounded_by_block_time_not_currTime :
    DequeueAllMatureUBDQueue c9State 100 = (c9State, []) ∧
      DequeueAllMatureUBDQueue { c9State with blockTime := 60 } 0 =
        ({ c9State with blockTime := 60, ubdQueue := [] }, [(1, 2)]) ∧
      DequeueAllMatureRedelegationQueue c9StateRed 100 = (c9StateRed, []) ∧
      DequeueAllMatureRedelegationQueue { c9StateRed with blockTime := 60 } 0 =
        ({ c9StateRed with blockTime := 60, redQueue := [] }, [(1, 2, 3)]) := by
  refine ⟨rfl, rfl, rfl, rfl⟩

/-- Record for delegator 1 / validator 2 already at the one-entry cap
(`maxEntriesP` 1), with no validator record in the registry. -/
def c5State : State :=
  { emptyState with
      ubds := [((1, 2), ⟨1, 2, [⟨1, 1, 5, 7, 7, false⟩]⟩)],
      ubdByValIndex := [(2, 1)],
      opIndex := [(1, .ubd 1 2)],
      opIdCounter := 1,
      maxEntriesP := 1 }

/-- C5 counterexample: the unbonding record between delegator 1 and
validator 2 already holds MaxEntries entries, yet `Undelegate` fails
with NoDelegatorForAddress — not MaxUnbondingDelegationEntries —
because no validator record exists and the validator lookup runs
first. -/
theorem undelegate_maxed_entries_missing_validator :
    HasMaxUnbondingDelegationEntries c5State 1 2 = true ∧
      Undelegate c5State 1 2 1 = .err .noDelegatorForAddress c5State := by
  refine ⟨rfl, rfl⟩

/-- C5 (amended): when a validator record exists and the unbonding
record between the delegator and the validator already holds at least
MaxEntries entries, `Undelegate` fails with
MaxUnbondingDelegationEntries and leaves the state unchanged: nothing
is unbonded, created, or enqueued. -/
theorem undelegate_max_entries_fails (s : State) (d v : Nat) (sh : Rat)
    (val : Validator) (hval : GetValidator s v = some val)
    (ubd : UnbondingDelegation) (hubd : GetUnbondingDelegation s d v = some ubd)
    (hmax : ubd.entries.length ≥ s.maxEntriesP) :
    Undelegate s d v sh = .err .maxUnbondingDelegationEntries s := by
  have hm : HasMaxUnbondingDelegationEntries s d v = true := by
    unfold HasMaxUnbondingDelegationEntries
    rw [hubd]
    simpa using hmax
  unfold Undelegate
  rw [hval, hm]
  simp

/-- Validator 2, bonded, with a healthy exchange rate. -/
def w5Validator : Validator :=
  { operator := 2, status := .Bonded, tokens := 100, delegatorShares := 100,
    jailed := false, minSelfDelegation := 0, unbondingHeight := 0, unbondingTime := 0 }

/-- `c5State` with the validator record present. -/
def w5State : State := { c5State with validators := [(2, w5Validator)] }

/-- Amended C5 at a concrete input: validator present, record at the
cap, so `Undelegate` returns the MaxUnbondingDelegationEntries error
with the store untouched. -/
theorem undelegate_max_entries_fails_witness :
    Undelegate w5State 1 2 1 = .err .maxUnbondingDelegationEntries w5State :=
  undelegate_max_entries_fails w5State 1 2 1 w5Validator rfl
    ⟨1, 2, [⟨1, 1, 5, 7, 7, false⟩]⟩ rfl (by decide)

/-- C7: `BeginRedelegation` called with equal source and destination
validator addresses always fails with SelfRedelegation and returns the
state unchanged — the equality test is the first statement, before any
read-modify-write. -/
theorem beginRedelegation_self_fails (s : State) (d v : Nat) (sh : Rat) :
    BeginRedelegation s d v v sh = .err .selfRedelegation s := by
  unfold BeginRedelegation
  simp

/-- C10: when no validator record exists for the validator address,
`Undelegate` fails with NoDelegatorForAddress (the lookup's error value
in this source, not NoValidatorFound) before any unbonding, and leaves
the state unchanged. -/
theorem undelegate_missing_validator_error (s : State) (d v : Nat) (sh : Rat)
    (h : GetValidator s v = none) :
    Undelegate s d v sh = .err .noDelegatorForAddress s := by
  unfold Undelegate
  rw [h]

/-- C10 at a concrete input: the empty store has no validator 2, so
`Undelegate` returns the NoDelegatorForAddress error unchanged. -/
theorem undelegate_missing_validator_error_witness :
    Undelegate emptyState 1 2 1 = .err .noDelegatorForAddress emptyState :=
  undelegate_missing_validator_error emptyState 1 2 1 rfl

theorem unbondJailStep_hooks (s : State) (a : Nat) (val : Validator) (sh : Rat) :
    (unbondJailStep s a val sh).1.hooks = s.hooks := by
  unfold unbondJailStep
  split <;> rfl

theorem unbondJailStep_some (s : State) (a : Nat) (val : Validator) (sh : Rat) :
    ∃ w, (unbondJailStep s a val sh).2 = some w := by
  unfold unbondJailStep
  split
  · exact ⟨{ val with jailed := true },
      by simp [jailValidator, SetValidator, GetValidator, aget_aset_self]⟩
  · exact ⟨val, rfl⟩

theorem GetDelegation_SetDelegation (s : State) (del : Delegation) (d v : Nat) :
    GetDelegation (SetDelegation s del) d v =
      aget (aset s.delegations (del.delegator, del.validator) del) (d, v) := rfl

theorem GetDelegation_RemoveDelegation (s : State) (del : Delegation) (d v : Nat) :
    GetDelegation (RemoveDelegation s del) d v =
      aget (adel s.delegations (del.delegator, del.validator)) (d, v) := rfl

theorem GetDelegation_RVTS (s : State) (val : Validator) (sh : Rat) (d v : Nat) :
    GetDelegation (RemoveValidatorTokensAndShares s val sh).1 d v = GetDelegation s d v := rfl

theorem hooks_RVTS (s : State) (val : Validator) (sh : Rat) :
    (RemoveValidatorTokensAndShares s val sh).1.hooks = s.hooks := rfl

theorem hooks_SetDelegation (s : State) (del : Delegation) :
    (SetDelegation s del).hooks = s.hooks := rfl

theorem hooks_hook (s : State) (e : HookEvent) :
    (hook s e).hooks = s.hooks ++ [e] := rfl

theorem hooks_RemoveValidator (s : State) (a : Nat) :
    (RemoveValidator s a).hooks = s.hooks := rfl

/-- Delegation (1,2) of 5 shares exists but validator 2 has no registry
record. -/
def c8State : State :=
  { emptyState with delegations := [((1, 2), ⟨1, 2, 5⟩)] }

/-- C8 counterexample: for an existing delegation with enough shares
but no validator record, `Unbond` of the full share balance does not
delete the record — it fails with NoValidatorFound and the delegation
survives untouched. -/
theorem unbond_full_shares_missing_validator :
    (Unbond c8State 1 2 5).errOf? = some .noValidatorFound ∧
      (Unbond c8State 1 2 5).stateOf?.map (fun st => GetDelegation st 1 2) =
        some (some ⟨1, 2, 5⟩) := by
  refine ⟨rfl, rfl⟩

/-- C8 (amended): for an existing delegation with a matching key, with
enough shares, and whose validator record exists, `Unbond` of exactly
the full share balance succeeds and deletes the delegation record,
while `Unbond` of any strictly smaller amount succeeds, leaves the
record present with its shares reduced by exactly the unbonded amount,
and fires the before-modify and after-modify hooks. -/
theorem unbond_full_or_partial_shares (s : State) (d v : Nat) (sh : Rat)
    (del : Delegation) (val : Validator)
    (hdel : GetDelegation s d v = some del)
    (hdd : del.delegator = d) (hdv : del.validator = v)
    (hval : GetValidator s v = some val)
    (hle : sh ≤ del.shares) :
    (sh = del.shares → ∃ amt s', Unbond s d v sh = .ok amt s' ∧ GetDelegation s' d v = none) ∧
    (sh < del.shares → ∃ amt s', Unbond s d v sh = .ok amt s' ∧
        GetDelegation s' d v = some { del with shares := del.shares - sh } ∧
        s'.hooks = s.hooks ++ [.beforeDelegationSharesModified d v, .afterDelegationModified d v]) := by
  have hnlt : ¬ (del.shares < sh) := not_lt.mpr hle
  obtain ⟨w, hw⟩ :=
    unbondJailStep_some (hook s (.beforeDelegationSharesModified d v)) d val (del.shares - sh)
  constructor
  · intro hfull
    have hzero : del.shares - sh = 0 := sub_eq_zero.mpr hfull.symm
    unfold Unbond
    rw [hdel]
    dsimp only
    rw [if_neg hnlt, GetValidator_hook, hval]
    dsimp only
    rw [hw]
    dsimp only
    rw [if_pos hzero]
    refine ⟨_, _, rfl, ?_⟩
    split
    · rw [GetDelegation_RemoveValidator, GetDelegation_RVTS, GetDelegation_RemoveDelegation]
      dsimp only
      rw [hdd, hdv]
      exact aget_adel_self _ _
    · rw [GetDelegation_RVTS, GetDelegation_RemoveDelegation]
      dsimp only
      rw [hdd, hdv]
      exact aget_adel_self _ _
  · intro hlt
    have hne : del.shares - sh ≠ 0 := sub_ne_zero.mpr (ne_of_gt hlt)
    unfold Unbond
    rw [hdel]
    dsimp only
    rw [if_neg hnlt, GetValidator_hook, hval]
    dsimp only
    rw [hw]
    dsimp only
    rw [if_neg hne]
    refine ⟨_, _, rfl, ?_, ?_⟩
    · split
      · rw [GetDelegation_RemoveValidator, GetDelegation_RVTS, GetDelegation_hook,
          GetDelegation_SetDelegation]
        dsimp only
        rw [hdd, hdv]
        exact aget_aset_self _ _ _
      · rw [GetDelegation_RVTS, GetDelegation_hook, GetDelegation_SetDelegation]
        dsimp only
        rw [hdd, hdv]
        exact aget_aset_self _ _ _
    · split
      · rw [hooks_RemoveValidator, hooks_RVTS, hooks_hook, hooks_SetDelegation,
          unbondJailStep_hooks, hooks_hook, hdd, hdv, List.append_assoc]
        rfl
      · rw [hooks_RVTS, hooks_hook, hooks_SetDelegation,
          unbondJailStep_hooks, hooks_hook, hdd, hdv, List.append_assoc]
        rfl

/-- Bonded validator 2 with a healthy one-to-one exchange rate. -/
def w8Validator : Validator :=
  { operator := 2, status := .Bonded, tokens := 100, delegatorShares := 100,
    jailed := false, minSelfDelegation := 0, unbondingHeight := 0, unbondingTime := 0 }

/-- Delegation (1,2) of 5 shares with validator 2 present. -/
def w8State : State :=
  { emptyState with delegations := [((1, 2), ⟨1, 2, 5⟩)], validators := [(2, w8Validator)] }

/-- Amended C8 at a concrete input: delegation (1,2) of 5 shares,
validator present, unbonding 2 of the 5 shares. -/
theorem unbond_full_or_partial_shares_witness :
    ((2 : Rat) = (5 : Rat) →
      ∃ amt s', Unbond w8State 1 2 2 = .ok amt s' ∧ GetDelegation s' 1 2 = none) ∧
    ((2 : Rat) < (5 : Rat) →
      ∃ amt s', Unbond w8State 1 2 2 = .ok amt s' ∧
        GetDelegation s' 1 2 = some ⟨1, 2, 5 - 2⟩ ∧
        s'.hooks = w8State.hooks ++
          [.beforeDelegationSharesModified 1 2, .afterDelegationModified 1 2]) :=
  unbond_full_or_partial_shares w8State 1 2 2 ⟨1, 2, 5⟩ w8Validator rfl rfl rfl rfl (by decide)

/-- C6: once `BeginRedelegation`'s validation has passed and the
source-side `Unbond` (nonzero amount) and destination-side `Delegate`
have succeeded, the outcome is keyed on the source validator's status
as re-read at that point: Unbonded — the call returns immediately with
the zero completion time and the state exactly as `Delegate` left it
(no redelegation entry, nothing enqueued); Unbonding — the entry is
created with the source validator's own unbonding completion time and
height and enqueued at that time; Bonded — the entry is created with
block time plus the unbonding-period parameter and the current block
height, and enqueued at that time. -/
theorem beginRedelegation_completion_by_source_status
    (s : State) (d vs vd : Nat) (sh : Rat)
    (dstVal srcVal : Validator) (amt : Int) (s1 : State) (shCreated : Rat)
    (s2 : State) (v2 : Validator)
    (hneq : vs ≠ vd)
    (hdst : GetValidator s vd = some dstVal)
    (hsrc : GetValidator s vs = some srcVal)
    (hrecv : HasReceivingRedelegation s d vs = false)
    (hmax : HasMaxRedelegationEntries s d vs vd = false)
    (hub : Unbond s d vs sh = .ok amt s1)
    (hamt : amt ≠ 0)
    (hdel : Delegate s1 d amt srcVal.status dstVal false = .ok shCreated s2)
    (hv2 : GetValidator s2 vs = some v2) :
    (v2.status = .Unbonded → BeginRedelegation s d vs vd sh = .ok 0 s2) ∧
    (v2.status = .Unbonding →
      BeginRedelegation s d vs vd sh = .ok v2.unbondingTime
        (InsertRedelegationQueue
          (SetRedelegationEntry s2 d vs vd v2.unbondingHeight v2.unbondingTime amt sh shCreated).1
          (SetRedelegationEntry s2 d vs vd v2.unbondingHeight v2.unbondingTime amt sh shCreated).2
          v2.unbondingTime)) ∧
    (v2.status = .Bonded →
      BeginRedelegation s d vs vd sh = .ok (s2.blockTime + s2.unbondingTimeP)
        (InsertRedelegationQueue
          (SetRedelegationEntry s2 d vs vd s2.blockHeight (s2.blockTime + s2.unbondingTimeP)
            amt sh shCreated).1
          (SetRedelegationEntry s2 d vs vd s2.blockHeight (s2.blockTime + s2.unbondingTimeP)
            amt sh shCreated).2
          (s2.blockTime + s2.unbondingTimeP))) := by
  have hred : BeginRedelegation s d vs vd sh =
      (if (getBeginInfo s2 vs).2.2 then .ok (getBeginInfo s2 vs).1 s2
       else .ok (getBeginInfo s2 vs).1
         (InsertRedelegationQueue
           (SetRedelegationEntry s2 d vs vd (getBeginInfo s2 vs).2.1 (getBeginInfo s2 vs).1
             amt sh shCreated).1
           (SetRedelegationEntry s2 d vs vd (getBeginInfo s2 vs).2.1 (getBeginInfo s2 vs).1
             amt sh shCreated).2
           (getBeginInfo s2 vs).1)) := by
    have hrecv' : ¬ (HasReceivingRedelegation s d vs = true) := by simp [hrecv]
    have hmax' : ¬ (HasMaxRedelegationEntries s d vs vd = true) := by simp [hmax]
    unfold BeginRedelegation
    rw [if_neg hneq, hdst]
    dsimp only
    rw [hsrc]
    dsimp only
    rw [if_neg hrecv', if_neg hmax', hub]
    dsimp only
    rw [if_neg hamt, hdel]
  refine ⟨?_, ?_, ?_⟩ <;> intro hstat <;> rw [hred] <;>
    simp [getBeginInfo, hv2, Validator.isBonded, Validator.isUnbonded, hstat]

attribute [local semireducible] Rat.mul Rat.add Rat.sub Rat.inv

/-- Source validator 2: bonded, 100 tokens backing 100 shares. -/
def w6SrcValidator : Validator :=
  { operator := 2, status := .Bonded, tokens := 100, delegatorShares := 100,
    jailed := false, minSelfDelegation := 0, unbondingHeight := 0, unbondingTime := 0 }

/-- Destination validator 3: bonded, 50 tokens backing 50 shares. -/
def w6DstValidator : Validator :=
  { operator := 3, status := .Bonded, tokens := 50, delegatorShares := 50,
    jailed := false, minSelfDelegation := 0, unbondingHeight := 0, unbondingTime := 0 }

/-- Delegator 1 holds 10 shares with validator 2; block time 1000,
height 7, unbonding period 50. -/
def w6State : State :=
  { emptyState with
      delegations := [((1, 2), ⟨1, 2, 10⟩)],
      validators := [(2, w6SrcValidator), (3, w6DstValidator)],
      blockTime := 1000, blockHeight := 7, unbondingTimeP := 50 }

/-- The state after unbonding 5 shares from the source validator. -/
def w6S1 : State :=
  match Unbond w6State 1 2 5 with
  | .ok _ st => st
  | _ => w6State

/-- The state after re-delegating the 5 returned tokens to the
destination validator. -/
def w6S2 : State :=
  match Delegate w6S1 1 5 w6SrcValidator.status w6DstValidator false with
  | .ok _ st => st
  | _ => w6S1

/-- The source validator as re-read after the unbond and delegate. -/
def w6V2 : Validator :=
  match GetValidator w6S2 2 with
  | some v => v
  | none => w6SrcValidator

/-- C6 at a concrete input: the bonded-source case — the redelegation
entry is created with block time 1000 plus the 50-unit unbonding period
and enqueued at 1050. -/
theorem beginRedelegation_completion_by_source_status_witness :
    BeginRedelegation w6State 1 2 3 5 = .ok (w6S2.blockTime + w6S2.unbondingTimeP)
      (InsertRedelegationQueue
        (SetRedelegationEntry w6S2 1 2 3 w6S2.blockHeight (w6S2.blockTime + w6S2.unbondingTimeP)
          5 5 5).1
        (SetRedelegationEntry w6S2 1 2 3 w6S2.blockHeight (w6S2.blockTime + w6S2.unbondingTimeP)
          5 5 5).2
        (w6S2.blockTime + w6S2.unbondingTimeP)) :=
  (beginRedelegation_completion_by_source_status w6State 1 2 3 5
      w6DstValidator w6SrcValidator 5 w6S1 5 w6S2 w6V2
      (by decide) rfl rfl rfl rfl (by rfl) (by decide) (by rfl) (by rfl)).2.2 (by rfl)

end Staking
